import Mathlib

/-!
# Verification of the incremental build engine of `autobuild.py`

This file gives a shallow embedding of the incremental static-site build
engine implemented in `src/autobuild.py` (with the metadata-normalisation
step of `src/parser.py` and the post-page guard of `src/generator.py`),
and proves/refutes the frozen claims about it.

Modelling conventions:
* File contents never appear: a source document is represented by its
  SHA-256 fingerprint (an abstract `String`), exactly as the engine itself
  only ever consumes fingerprints (`get_full_content_hash`).  Identical
  bytes have identical fingerprints and distinct bytes distinct ones
  (spec §4.1 determinism of SHA-256 hashing).
* Python dictionaries that preserve insertion order (all manifest buckets)
  are modelled as association lists `List (String × _)`; key lookup takes
  the first match, as in a dict with unique keys.
* A manifest entry is a JSON object whose keys may be absent (historical
  or partially written manifests), hence every field is an `Option`.
  A key present with JSON `null` is not distinguished from an absent key.
* Filesystem effects are modelled as an emitted trace of `Action`s in the
  exact program order; the unconditional asset copy (`shutil.copytree`)
  and the CNAME copy are outside the claims and not traced.
* Exceptions: the external collaborators (markdown renderer, templating)
  are pure per spec §6; `generate_page_html` / `generate_post_page`
  swallow their own exceptions, so page generation is modelled as always
  emitting its action.
-/

namespace Autobuild

/-! ## Python string primitives

Reimplemented over `String.data` so that every definition reduces in the
kernel.  They model CPython semantics on the character ranges the engine
actually handles (ASCII configuration strings, code-point comparison). -/

/-- Code-point `<` on characters, as Python compares strings. -/
def charLtB (a b : Char) : Bool := a.val < b.val

/-- Lexicographic `<` on character lists (Python string `<`). -/
def strLtL : List Char → List Char → Bool
  | [], [] => false
  | [], _ :: _ => true
  | _ :: _, [] => false
  | a :: as, b :: bs =>
    if charLtB a b then true else if charLtB b a then false else strLtL as bs

/-- Python string `<`. -/
def pyStrLt (a b : String) : Bool := strLtL a.data b.data

/-- Python string `<=`. -/
def pyStrLe (a b : String) : Bool := pyStrLt a b || a == b

/-- Python `str.lower()` (ASCII range, as used on slugs and links). -/
def pyLower (s : String) : String := String.mk (s.data.map Char.toLower)

/-- Python `str.title()` applied to a slug: an alphabetic character is
upper-cased when it follows a non-alphabetic one, lower-cased otherwise. -/
def pyTitleChars : Bool → List Char → List Char
  | _, [] => []
  | prevAlpha, c :: cs =>
    if c.isAlpha then
      (if prevAlpha then c.toLower else c.toUpper) :: pyTitleChars true cs
    else
      c :: pyTitleChars false cs

/-- Python `str.title()`. -/
def pyTitle (s : String) : String := String.mk (pyTitleChars false s.data)

/-- Python `str.replace(a, b)` for single characters (used as
`slug.replace('-', ' ')`). -/
def pyReplaceChar (a b : Char) (s : String) : String :=
  String.mk (s.data.map fun c => if c = a then b else c)

/-- Python `str.strip()` of whitespace. -/
def pyStripWs (s : String) : String :=
  String.mk (((s.data.dropWhile Char.isWhitespace).reverse.dropWhile
    Char.isWhitespace).reverse)

/-- Python `str.strip('/')`. -/
def pyStripSlash (s : String) : String :=
  String.mk (((s.data.dropWhile (· = '/')).reverse.dropWhile (· = '/')).reverse)

/-- Suffix test on strings (Python `str.endswith`). -/
def pyEndsWith (s suffx : String) : Bool :=
  s.data.reverse.take suffx.data.length == suffx.data.reverse

/-- Python `s[:-n]` for `n ≤ len s`. -/
def pyDropRight (s : String) (n : Nat) : String :=
  String.mk (s.data.take (s.data.length - n))

/-- First line of a string (Python `s.split('\n', 1)[0]`). -/
def pyFirstLine (s : String) : String :=
  String.mk (s.data.takeWhile (· ≠ '\n'))

/-- `os.path.splitext(basename)[0]`: drop the extension after the last
dot (files consisting only of a leading dot are excluded by the `*.md`
glob and not modelled). -/
def stripExt (s : String) : String :=
  match (s.data.reverse.dropWhile (· ≠ '.')) with
  | [] => s
  | _ :: rest => String.mk rest.reverse

/-- Python `repr` of a list of strings, as produced by
`str(['a', 'b'])`; faithful for strings without quote characters, the only
ones the engine compares. -/
def pyReprStrList (l : List String) : String :=
  "[" ++ String.intercalate ", " (l.map fun s => "'" ++ s ++ "'") ++ "]"

/-- Python `str(bool)`. -/
def pyStrBool : Bool → String
  | true => "True"
  | false => "False"

/-- Stable insertion into a sorted list (used to model Python's stable
`sorted`; any stable sort w.r.t. a total preorder yields the same list). -/
def stableInsert (le : α → α → Bool) (x : α) : List α → List α
  | [] => [x]
  | y :: ys => if le x y then x :: y :: ys else y :: stableInsert le x ys

/-- Stable sort; elements equal under `le` keep their original order
because `stableInsert` places the earlier element first on ties. -/
def stableSort (le : α → α → Bool) : List α → List α
  | [] => []
  | x :: xs => stableInsert le x (stableSort le xs)

/-- Python `sorted` on strings (ascending, code-point order). -/
def pySortedStr (l : List String) : List String := stableSort pyStrLe l

/-- Association-list lookup: first value stored under a key
(Python `dict.get`). -/
def alget (l : List (String × α)) (k : String) : Option α :=
  match l with
  | [] => none
  | (a, b) :: t => if a = k then some b else alget t k

/-! ## Configuration constants (`config.py`) -/

def BUILD_DIR : String := "_site"
def POSTS_DIR_NAME : String := "posts"
def ABOUT_PAGE : String := "about.md"

/-! ## Data model -/

/-- One entry of the `posts` bucket of the persisted manifest
(`.build_manifest.json`).  Every key may be absent in a historical or
partially written manifest, hence the `Option`s; `save_manifest` itself
writes either the two-key form `{hash, link}` (special pages) or the full
seven-key form (normal posts). -/
structure OldEntry where
  hash : Option String
  link : Option String
  title : Option String
  date_str : Option String
  tags_list : Option (List String)
  hidden : Option Bool
  status : Option String
deriving DecidableEq, Repr

/-- The empty dict `{}` that `old_manifest.get('posts', {}).get(path, {})`
yields for an unknown path. -/
def OldEntry.empty : OldEntry :=
  { hash := none, link := none, title := none, date_str := none,
    tags_list := none, hidden := none, status := none }

/-- The persisted manifest: `{posts, static_files, templates}`, each an
insertion-ordered string-keyed mapping. -/
structure Manifest where
  posts : List (String × OldEntry)
  static_files : List (String × String)
  templates : List (String × String)
deriving DecidableEq, Repr

/-- On-disk state of the manifest file, as `load_manifest` finds it. -/
inductive ManifestFile where
  | missing
  | malformed
  | stored (m : Manifest)
deriving DecidableEq, Repr

/-- `load_manifest` (autobuild.py:36-42): `json.load` of the file;
`FileNotFoundError` and `JSONDecodeError` both yield the empty dict `{}`.
`none` denotes that empty dict: every bucket lookup on it is empty and it
is falsy (`not old_manifest` holds); `some m` denotes a loaded manifest
dict carrying the buckets of `m` (a manifest written by `save_manifest`
always has its three top-level keys, hence is truthy). -/
def load_manifest : ManifestFile → Option Manifest
  | .missing => none
  | .malformed => none
  | .stored m => some m

/-- Front-matter of a source document as `yaml.safe_load` returns it
(before normalisation); `none` marks an absent key.  `date` is carried in
its final `%Y-%m-%d` rendering (the engine compares and stores only that
rendering); `tags` is the tag-name list after the comma-split of a string
value. -/
structure RawMeta where
  date : Option String
  title : Option String
  slug : Option String
  tags : List String
  hidden : Option Bool
  status : Option String
deriving DecidableEq, Repr

/-- Normalised metadata as produced by `get_metadata_and_content`
(parser.py:92-127); `none` marks a key the dict does not have. -/
structure Metadata where
  date : Option String
  title : Option String
  slug : Option String
  tags : List String
  hidden : Option Bool
  status : Option String
deriving DecidableEq, Repr

/-- The `{}` metadata returned when the source file cannot be read
(parser.py:69-74 returns before any normalisation). -/
def Metadata.empty : Metadata :=
  { date := none, title := none, slug := none, tags := [],
    hidden := none, status := none }

/-- One discovered source document: its manifest key (`relative_path`),
basename, readability, raw front-matter, markdown body (only its first
line can matter, for the title fallback), and content fingerprint.
`contentHash` is what `get_full_content_hash` returns — `""` when the
file cannot be read. -/
structure DocInput where
  relPath : String
  fileName : String
  readOk : Bool
  raw : RawMeta
  contentMarkdown : String
  contentHash : String
deriving DecidableEq, Repr

/-- A parsed post object (the fields of the `post` dict that the engine
reads downstream). -/
structure Post where
  title : String
  date : String
  slug : String
  link : String
  tags : List String
  hidden : Option Bool
  status : Option String
deriving DecidableEq, Repr

/-- `new_manifest_data` (autobuild.py:398-407). -/
structure NewEntryData where
  hash : String
  title : String
  date_str : String
  link : String
  tags_list : List String
  hidden : Bool
  status : String
deriving DecidableEq, Repr

/-- The JSON object written for a normal post: all seven keys present. -/
def NewEntryData.toOldEntry (n : NewEntryData) : OldEntry :=
  { hash := some n.hash, link := some n.link, title := some n.title,
    date_str := some n.date_str, tags_list := some n.tags_list,
    hidden := some n.hidden, status := some n.status }

/-- Hashes of the theme dependency files currently on disk; `none` means
the file does not exist (`os.path.exists` is false), `some h` its
`get_full_content_hash`.  `coreHashes` is positionally aligned with
`CORE_DEPENDENCIES`. -/
structure ThemeDisk where
  cssHash : Option String
  baseHash : Option String
  coreHashes : List (Option String)
deriving DecidableEq, Repr

/-- Input of one invocation of `build_site`. -/
structure RunInput where
  oldManifest : Option Manifest
  theme : ThemeDisk
  docs : List DocInput
  today : String
deriving DecidableEq, Repr

/-- Observable filesystem effects of a run, in program order.
`removeOutput l` stands for the directory-or-file removal of the output
location recorded under link `l` (autobuild.py:434-447 and 470-483:
`shutil.rmtree` when a directory, `os.remove` when a file);
`generatePage` for `generator.generate_page_html`; `generatePostPage` for
`generator.generate_post_page`; `generateAggregates` for the
all-or-nothing aggregate block (index, archive, tag list, per-tag pages,
robots, sitemap, RSS; autobuild.py:547-562). -/
inductive Action where
  | removeOutput (link : String)
  | generatePage (pageId : String) (link : String)
  | generatePostPage (link : String)
  | generateAggregates
deriving DecidableEq, Repr

/-! ## Parser: metadata normalisation (`parser.py:64-130`) -/

/-- Slug derived from the file name (parser.py:113-121): strip the
extension, strip an optional `YYYY-MM-DD-` prefix when the remainder is
non-empty, lower-case.  The date-prefix test mirrors the regex
`^(\d{4}-\d{2}-\d{2}-)?(.*)$`. -/
def slugFromFilename (fileName : String) : String :=
  let base := stripExt fileName
  let cs := base.data
  let isDatePrefix :=
    cs.length ≥ 11 &&
    (cs.take 10).length == 10 &&
    ((cs.take 4).all Char.isDigit) &&
    (cs.drop 4).headD ' ' == '-' &&
    (((cs.drop 5).take 2).all Char.isDigit) &&
    (cs.drop 7).headD ' ' == '-' &&
    (((cs.drop 8).take 2).all Char.isDigit) &&
    (cs.drop 10).headD ' ' == '-'
  if isDatePrefix && (cs.drop 11) ≠ [] then
    pyLower (String.mk (cs.drop 11))
  else
    pyLower base

/-- Default title (parser.py:124-127):
`metadata['slug'].replace('-', ' ').title()`, falling back to the first
(stripped) line of the body when that is empty and the body is not. -/
def defaultTitle (slug : String) (contentMarkdown : String) : String :=
  let t := pyTitle (pyReplaceChar '-' ' ' slug)
  if t = "" && contentMarkdown ≠ "" then pyFirstLine contentMarkdown |> pyStripWs
  else t

/-- Metadata normalisation of `get_metadata_and_content`
(parser.py:92-127).  On an unreadable file the function returns `{}`
before normalisation runs; otherwise `date` defaults to today's date
(`standardize_date` / `date.today()`), `tags` drops empty names, `slug`
defaults from the file name, `title` defaults from the slug.  `hidden`
and `status` are passed through untouched (the `excerpt` field is not
consumed by the build engine and is omitted). -/
def normalizeMeta (today : String) (d : DocInput) : Metadata :=
  if !d.readOk then Metadata.empty
  else
    let slug := d.raw.slug.getD (slugFromFilename d.fileName)
    { date := some (d.raw.date.getD today)
      title := some (d.raw.title.getD (defaultTitle slug d.contentMarkdown))
      slug := some slug
      tags := d.raw.tags.filter (· ≠ "")
      hidden := d.raw.hidden
      status := d.raw.status }

/-! ## Staleness classifier (`build_site`, autobuild.py:315-321) -/

/-- `needs_full_build = (current_hash != old_hash) or ('link' not in
old_item)` (autobuild.py:320), where `old_hash = old_item.get('hash')`. -/
def needs_full_build (current_hash : String) (old_item : OldEntry) : Bool :=
  decide (old_item.hash ≠ some current_hash) || old_item.link.isNone

/-- The spec's own wording of the classifier (§4.3): `needsFullRegen =
(currentHash != oldEntry.contentHash) OR (oldEntry is absent) OR
(oldEntry.outputLink is absent)`.  Stated over an `Option OldEntry` so
that "the old entry is absent" is explicit. -/
def specNeedsFullRegen (currentHash : String) (oldEntry : Option OldEntry) : Bool :=
  match oldEntry with
  | none => true
  | some e => decide (e.hash ≠ some currentHash) || e.link.isNone

/-- Field-wise comparison `str(new_value) != str(old_item.get(key))`
(autobuild.py:409-418), skipping `hash`.  `str` of an absent key is
`'None'`; `str` of a string is itself, of a bool `True`/`False`, of a
list its `repr`. -/
def metadata_changed (nd : NewEntryData) (old_item : OldEntry) : Bool :=
  let strNe : String → Option String → Bool := fun v o =>
    v ≠ (match o with | some s => s | none => "None")
  let listNe : List String → Option (List String) → Bool := fun v o =>
    pyReprStrList v ≠ (match o with | some l => pyReprStrList l | none => "None")
  let boolNe : Bool → Option Bool → Bool := fun v o =>
    pyStrBool v ≠ (match o with | some b => pyStrBool b | none => "None")
  strNe nd.title old_item.title ||
  strNe nd.date_str old_item.date_str ||
  strNe nd.link old_item.link ||
  listNe nd.tags_list old_item.tags_list ||
  boolNe nd.hidden old_item.hidden ||
  strNe nd.status old_item.status

/-! ## Per-document processing (`build_site` loop body, autobuild.py:311-459)

The loop iterations only accumulate into `new_manifest`, `parsed_posts`,
`posts_to_build`, `posts_data_changed` and the effect trace; no iteration
reads another's contribution, so the loop is the concatenation (resp.
disjunction) of per-document contributions computed below. -/

/-- The branch the loop body takes for a document. -/
inductive DocBranch where
  | special404
  | hiddenPage
  | excluded
  | normal
deriving DecidableEq, Repr

/-- Final slug used by the loop (autobuild.py:339-343): the parser's slug,
or — for a document whose metadata has no `slug` key, i.e. an unreadable
file — the file's basename without extension; then `str(...).lower()`. -/
def docSlug (today : String) (d : DocInput) : String :=
  pyLower ((normalizeMeta today d).slug.getD (stripExt d.fileName))

/-- Branch selection (autobuild.py:347, 366, 382): 404 check, then hidden
check, then the required-field (`date`, `title`) check. -/
def docBranch (today : String) (d : DocInput) : DocBranch :=
  let meta := normalizeMeta today d
  if docSlug today d = "404" || d.fileName = "404.md" then .special404
  else if meta.hidden == some true then .hiddenPage
  else if !(meta.date.isSome && meta.title.isSome) then .excluded
  else .normal

/-- Output link of a normal post (autobuild.py:387):
`posts/{slug}.html`. -/
def docLink (today : String) (d : DocInput) : String :=
  POSTS_DIR_NAME ++ "/" ++ docSlug today d ++ ".html"

/-- The `post` dict fields the engine reads downstream
(autobuild.py:388-395). -/
def docPost (today : String) (d : DocInput) : Post :=
  let meta := normalizeMeta today d
  { title := meta.title.getD ""
    date := meta.date.getD ""
    slug := docSlug today d
    link := docLink today d
    tags := meta.tags
    hidden := meta.hidden
    status := meta.status }

/-- `new_manifest_data` (autobuild.py:398-407): content hash plus the
normalised metadata projection (`title`, `date_str`, `link`, sorted tag
names, `hidden` defaulted to `False`, `status` defaulted to
`'published'`). -/
def docND (today : String) (d : DocInput) : NewEntryData :=
  let meta := normalizeMeta today d
  { hash := d.contentHash
    title := meta.title.getD ""
    date_str := meta.date.getD ""
    link := docLink today d
    tags_list := pySortedStr meta.tags
    hidden := meta.hidden.getD false
    status := meta.status.getD "published" }

/-- The manifest entry the document contributes (autobuild.py:363, 379,
455): `{hash, link:'404.html'}` / `{hash, link:'hidden'}` for the special
branches, the full `new_manifest_data` for a normal post, nothing for an
excluded document.  The entry value never depends on the old manifest or
on `theme_changed`. -/
def docEntry (today : String) (d : DocInput) : List (String × OldEntry) :=
  match docBranch today d with
  | .special404 =>
    [(d.relPath, { OldEntry.empty with
        hash := some d.contentHash, link := some "404.html" })]
  | .hiddenPage =>
    [(d.relPath, { OldEntry.empty with
        hash := some d.contentHash, link := some "hidden" })]
  | .excluded => []
  | .normal => [(d.relPath, (docND today d).toOldEntry)]

/-- Contribution to `parsed_posts` (autobuild.py:452): only normal posts. -/
def docParsed (today : String) (d : DocInput) : List Post :=
  match docBranch today d with
  | .normal => [docPost today d]
  | _ => []

/-- `old_item` of a document: `old_manifest.get('posts', {}).get(relative_path, {})`
(autobuild.py:317). -/
def docOldItem (oldPosts : List (String × OldEntry)) (d : DocInput) : OldEntry :=
  (alget oldPosts d.relPath).getD OldEntry.empty

/-- Contribution to `posts_to_build` (autobuild.py:457-459): a normal
post whose `needs_rebuild_html = needs_full_build or theme_changed`
(autobuild.py:321) holds. -/
def docToBuild (themeChanged : Bool) (oldPosts : List (String × OldEntry))
    (today : String) (d : DocInput) : List Post :=
  match docBranch today d with
  | .normal =>
    if needs_full_build d.contentHash (docOldItem oldPosts d) || themeChanged then
      [docPost today d]
    else []
  | _ => []

/-- Contribution to `posts_data_changed` (autobuild.py:423-429): set when
metadata changed without a full rebuild (line 423), or — redundantly —
when `needs_rebuild_list = needs_full_build or metadata_changed` holds
without a full rebuild (line 428).  Note that `needs_full_build` being
true suppresses both settings. -/
def docPdc (oldPosts : List (String × OldEntry)) (today : String)
    (d : DocInput) : Bool :=
  match docBranch today d with
  | .normal =>
    let nfb := needs_full_build d.contentHash (docOldItem oldPosts d)
    let mc := metadata_changed (docND today d) (docOldItem oldPosts d)
    (mc && !nfb) || ((nfb || mc) && !nfb)
  | _ => false

/-- Effects emitted while the loop body processes the document:
the 404 page (autobuild.py:354-361) and the hidden about page
(autobuild.py:373-378) when `needs_rebuild_html` holds, and the
slug-rename cleanup of a normal post (autobuild.py:431-447): the old
output location is removed when the old entry's link is truthy, differs
from the new link, and is not a sentinel.  (For an unreadable file named
`404.md` with a rebuild due, the real code raises `KeyError` on the
missing `title`; the model still emits the page action — no claim
touches that corner.) -/
def docActions (themeChanged : Bool) (oldPosts : List (String × OldEntry))
    (today : String) (d : DocInput) : List Action :=
  let nrh := needs_full_build d.contentHash (docOldItem oldPosts d) || themeChanged
  match docBranch today d with
  | .special404 => if nrh then [.generatePage "404" "404.html"] else []
  | .hiddenPage =>
    if (docSlug today d = "about" || d.fileName = ABOUT_PAGE) && nrh then
      [.generatePage "about" "about.html"]
    else []
  | .excluded => []
  | .normal =>
    match (docOldItem oldPosts d).link with
    | some l =>
      if l ≠ "" && l ≠ docLink today d && l ≠ "hidden" && l ≠ "404.html" then
        [.removeOutput l]
      else []
    | none => []

/-! ## Theme / template change detection (autobuild.py:219-283) -/

def cssSource : String := "assets/style.css"
def baseTemplateSource : String := "templates/base.html"

/-- The fixed core dependency list (autobuild.py:260-270). -/
def CORE_DEPENDENCIES : List String :=
  ["autobuild.py", "parser.py", "generator.py", "config.py",
   "templates/post.html", "templates/list.html",
   "templates/archive.html", "templates/tags_list.html"]

/-- Old-manifest buckets as the run reads them (missing manifest ⇒ empty
dict ⇒ empty buckets). -/
def oldPostsOf (I : RunInput) : List (String × OldEntry) :=
  (I.oldManifest.map Manifest.posts).getD []
def oldStaticOf (I : RunInput) : List (String × String) :=
  (I.oldManifest.map Manifest.static_files).getD []
def oldTemplatesOf (I : RunInput) : List (String × String) :=
  (I.oldManifest.map Manifest.templates).getD []

/-- CSS change flag (autobuild.py:222-235): only evaluated when the
stylesheet exists; a hash differing from
`old_manifest.get('static_files', {}).get(css_source)` — including an
absent old value — sets it. -/
def cssChangedOf (I : RunInput) : Bool :=
  match I.theme.cssHash with
  | some h => decide (alget (oldStaticOf I) cssSource ≠ some h)
  | none => false

/-- The `static_files` bucket of the new manifest (autobuild.py:237). -/
def cssEntriesOf (I : RunInput) : List (String × String) :=
  match I.theme.cssHash with
  | some h => [(cssSource, h)]
  | none => []

/-- Base-template change flag (autobuild.py:244-251). -/
def baseChangedOf (I : RunInput) : Bool :=
  match I.theme.baseHash with
  | some h => decide (alget (oldTemplatesOf I) baseTemplateSource ≠ some h)
  | none => false

def baseEntriesOf (I : RunInput) : List (String × String) :=
  match I.theme.baseHash with
  | some h => [(baseTemplateSource, h)]
  | none => []

/-- Each core dependency path paired with its current on-disk hash. -/
def corePairsOf (I : RunInput) : List (String × Option String) :=
  CORE_DEPENDENCIES.zip I.theme.coreHashes

/-- Core-dependency change flag (autobuild.py:272-280): any existing core
file whose hash differs from `old_manifest.get('templates', {}).get(f)`. -/
def coreChangedOf (I : RunInput) : Bool :=
  (corePairsOf I).any fun pr =>
    match pr.2 with
    | some h => decide (alget (oldTemplatesOf I) pr.1 ≠ some h)
    | none => false

/-- Entries the core loop adds to the new manifest's `templates` bucket
(autobuild.py:282). -/
def coreEntriesOf (I : RunInput) : List (String × String) :=
  (corePairsOf I).flatMap fun pr =>
    match pr.2 with
    | some h => [(pr.1, h)]
    | none => []

/-- `theme_changed` after the whole check block. -/
def themeChangedOf (I : RunInput) : Bool :=
  cssChangedOf I || baseChangedOf I || coreChangedOf I

/-! ## Document loop aggregation and orphan reconciliation -/

def sourcePathsOf (I : RunInput) : List String := I.docs.map DocInput.relPath

/-- `new_manifest['posts']` as built by the loop, before the deleted-path
pops. -/
def newPostsLoopOf (I : RunInput) : List (String × OldEntry) :=
  I.docs.flatMap (docEntry I.today)

def parsedPostsOf (I : RunInput) : List Post :=
  I.docs.flatMap (docParsed I.today)

def postsToBuildOf (I : RunInput) : List Post :=
  I.docs.flatMap (docToBuild (themeChangedOf I) (oldPostsOf I) I.today)

def pdcDocsOf (I : RunInput) : Bool :=
  I.docs.any (docPdc (oldPostsOf I) I.today)

def loopActionsOf (I : RunInput) : List Action :=
  I.docs.flatMap (docActions (themeChangedOf I) (oldPostsOf I) I.today)

/-- `deleted_paths = set(old_manifest.get('posts', {}).keys()) -
source_md_paths` (autobuild.py:462).  Python iterates the set in an
unspecified order; the model keeps the old manifest's insertion order
(no claim depends on the order of deletions). -/
def deletedPathsOf (I : RunInput) : List String :=
  ((oldPostsOf I).map Prod.fst).filter fun p => !(sourcePathsOf I).contains p

/-- Condition guarding the cleanup of a deleted document
(autobuild.py:469): the recorded link must be truthy and not a sentinel;
returns that link when cleanup fires. -/
def delCondLink (oldLink : Option String) : Option String :=
  match oldLink with
  | some l =>
    if l ≠ "" && l ≠ "hidden" && l ≠ "404.html" then some l else none
  | none => none

/-- Effects for one deleted path (autobuild.py:469-483): the single
directory-or-file removal of its recorded output location. -/
def docDeletionActions (oldPosts : List (String × OldEntry)) (p : String) :
    List Action :=
  match delCondLink ((alget oldPosts p).getD OldEntry.empty).link with
  | some l => [.removeOutput l]
  | none => []

/-- The `new_manifest['posts'].pop(deleted_path, None)` calls
(autobuild.py:488), performed only inside the non-sentinel branch.
`pop` removes the key's entry when present. -/
def applyDeletions (oldPosts : List (String × OldEntry))
    (deleted : List String) (posts : List (String × OldEntry)) :
    List (String × OldEntry) :=
  deleted.foldl
    (fun ps p =>
      match delCondLink ((alget oldPosts p).getD OldEntry.empty).link with
      | some _ => ps.eraseP (fun e => e.1 == p)
      | none => ps)
    posts

def delActionsOf (I : RunInput) : List Action :=
  (deletedPathsOf I).flatMap (docDeletionActions (oldPostsOf I))

def newPostsOf (I : RunInput) : List (String × OldEntry) :=
  applyDeletions (oldPostsOf I) (deletedPathsOf I) (newPostsLoopOf I)

/-- `posts_data_changed` after the loop and the deletion pass: a
metadata-only change on some surviving document, or any deleted document
(autobuild.py:467 sets it unconditionally per deleted path). -/
def pdcOf (I : RunInput) : Bool :=
  pdcDocsOf I || !(deletedPathsOf I).isEmpty

/-! ## Phase 5: HTML generation (autobuild.py:528-569) -/

/-- `sorted(parsed_posts, key=lambda p: p['date'], reverse=True)`
(autobuild.py:491): stable descending by date; the earlier element wins
ties, which is exactly `stableSort` with `a ≤ b ↔ ¬(a.date < b.date)`. -/
def finalParsedOf (I : RunInput) : List Post :=
  stableSort (fun a b => !pyStrLt a.date b.date) (parsedPostsOf I)

/-- `posts_to_build_all = final_parsed_posts if theme_changed else
posts_to_build` (autobuild.py:535). -/
def postsToBuildAllOf (I : RunInput) : List Post :=
  if themeChangedOf I then finalParsedOf I else postsToBuildOf I

/-- Gate of the aggregate block (autobuild.py:546): a falsy (empty-dict)
old manifest, a post-data change, or a theme change. -/
def aggregateOf (I : RunInput) : Bool :=
  !I.oldManifest.isSome || pdcOf I || themeChangedOf I

/-- Result of one `build_site` run: the flags, the saved manifest and the
effect trace. -/
structure RunResult where
  themeChanged : Bool
  postsDataChanged : Bool
  manifest : Manifest
  parsedPosts : List Post
  postsToBuild : List Post
  postsToBuildAll : List Post
  aggregateRebuilt : Bool
  trace : List Action
deriving DecidableEq, Repr

/-- `build_site` (autobuild.py:176-572): theme check, document loop,
orphan reconciliation, page generation, aggregate generation, manifest
save.  The trace lists the filesystem effects in program order: per-doc
loop effects, deletion cleanups, post-page generation, aggregates. -/
def build_site (I : RunInput) : RunResult :=
  { themeChanged := themeChangedOf I
    postsDataChanged := pdcOf I
    manifest :=
      { posts := newPostsOf I
        static_files := cssEntriesOf I
        templates := baseEntriesOf I ++ coreEntriesOf I }
    parsedPosts := parsedPostsOf I
    postsToBuild := postsToBuildOf I
    postsToBuildAll := postsToBuildAllOf I
    aggregateRebuilt := aggregateOf I
    trace :=
      loopActionsOf I ++ delActionsOf I ++
      (postsToBuildAllOf I).map (fun p => Action.generatePostPage p.link) ++
      (if aggregateOf I then [Action.generateAggregates] else []) }

/-! ## `generator.generate_post_page` (generator.py:150-195) -/

inductive GenAction where
  | mkDir (path : String)
  | writeFile (path : String)
deriving DecidableEq, Repr

/-- The filesystem effects of `generate_post_page` for a post with the
given `link` field: nothing for an absent or empty link or a link equal
(lower-cased) to `404.html`; otherwise the output directory is created
and `index.html` written inside it.  (Template rendering is a pure
collaborator; its output string is not modelled.) -/
def generate_post_page (link : Option String) : List GenAction :=
  match link with
  | none => []
  | some l =>
    if l = "" then []
    else if pyLower l = "404.html" then []
    else
      let cleanName :=
        pyStripSlash (if pyEndsWith (pyLower l) ".html" then pyDropRight l 5 else l)
      let outputDir := BUILD_DIR ++ "/" ++ cleanName
      [.mkDir outputDir, .writeFile (outputDir ++ "/index.html")]

/-! ## Concrete run inputs used as witnesses and counterexamples -/

/-- The empty theme disk: no stylesheet, no base template, no core files
on disk (every existence check is skipped, so no theme change). -/
def ThemeDisk.empty : ThemeDisk :=
  { cssHash := none, baseHash := none, coreHashes := [] }

/-- Manifest entry with hash `h` and the given link, all other keys
absent. -/
def hashLinkEntry (h l : String) : OldEntry :=
  { OldEntry.empty with hash := some h, link := some l }

/-- A manifest whose `posts` bucket is the given mapping and whose other
buckets are empty. -/
def postsOnlyManifest (ps : List (String × OldEntry)) : Manifest :=
  { posts := ps, static_files := [], templates := [] }

/-- A small readable document `markdown/a.md`. -/
def docA : DocInput :=
  { relPath := "markdown/a.md", fileName := "a.md", readOk := true,
    raw := { date := some "2024-01-02", title := some "A", slug := some "a",
             tags := [], hidden := none, status := none },
    contentMarkdown := "body", contentHash := "ha" }

/-- The manifest entry a previous run wrote for `docA`. -/
def entryA : OldEntry :=
  { hash := some "ha", link := some "posts/a.html", title := some "A",
    date_str := some "2024-01-02", tags_list := some [], hidden := some false,
    status := some "published" }

/-- A second readable document `markdown/b.md`, absent from old manifests. -/
def docB : DocInput :=
  { relPath := "markdown/b.md", fileName := "b.md", readOk := true,
    raw := { date := some "2024-02-02", title := some "B", slug := some "b",
             tags := [], hidden := none, status := none },
    contentMarkdown := "body", contentHash := "hb" }

/-- An unreadable document (metadata normalisation yields `{}`). -/
def docBad : DocInput :=
  { relPath := "markdown/bad.md", fileName := "bad.md", readOk := false,
    raw := { date := none, title := none, slug := none, tags := [],
             hidden := none, status := none },
    contentMarkdown := "", contentHash := "" }

/-- First build: no manifest on disk, two documents. -/
def firstRunInput : RunInput :=
  { oldManifest := none, theme := ThemeDisk.empty,
    docs := [docA, docB], today := "2026-01-01" }

/-- Non-first build in which `markdown/b.md` is newly added while
`markdown/a.md` is byte-identical to its manifest entry and the theme is
unchanged. -/
def addDocInput : RunInput :=
  { oldManifest := some (postsOnlyManifest [("markdown/a.md", entryA)]),
    theme := ThemeDisk.empty, docs := [docA, docB], today := "2026-01-01" }

/-- Old manifest whose only post was deleted and whose recorded output
link is the empty string. -/
def emptyLinkDeleteInput : RunInput :=
  { oldManifest := some (postsOnlyManifest
      [("markdown/gone.md", hashLinkEntry "h" "")]),
    theme := ThemeDisk.empty, docs := [], today := "2026-01-01" }

/-- Old manifest whose only post was deleted with a real output link. -/
def realLinkDeleteInput : RunInput :=
  { oldManifest := some (postsOnlyManifest
      [("markdown/gone.md", hashLinkEntry "h" "posts/gone.html")]),
    theme := ThemeDisk.empty, docs := [], today := "2026-01-01" }

/-- Surviving document `markdown/x.md` whose old manifest entry records
the empty string as its output link (the link differs from the newly
computed `posts/x.html`). -/
def docX : DocInput :=
  { relPath := "markdown/x.md", fileName := "x.md", readOk := true,
    raw := { date := some "2024-01-01", title := some "X", slug := some "x",
             tags := [], hidden := none, status := none },
    contentMarkdown := "body", contentHash := "h2" }

def emptyLinkRenameInput : RunInput :=
  { oldManifest := some (postsOnlyManifest
      [("markdown/x.md", hashLinkEntry "h" "")]),
    theme := ThemeDisk.empty, docs := [docX], today := "2026-01-01" }

/-- Surviving document `markdown/x.md` whose old entry records the
non-sentinel link `posts/old.html` and a different content hash. -/
def realRenameInput : RunInput :=
  { oldManifest := some (postsOnlyManifest
      [("markdown/x.md", hashLinkEntry "h" "posts/old.html")]),
    theme := ThemeDisk.empty, docs := [docX], today := "2026-01-01" }

/-- A theme disk whose stylesheet exists with hash `c1`. -/
def cssOnlyTheme : ThemeDisk :=
  { cssHash := some "c1", baseHash := none, coreHashes := [] }

/-- Run whose old manifest stores a different stylesheet hash. -/
def cssChangedInput : RunInput :=
  { oldManifest := some { posts := [("markdown/a.md", entryA)], static_files := [(cssSource, "c0")], templates := [] },
    theme := cssOnlyTheme, docs := [docA], today := "2026-01-01" }

/-! ## Generic lemmas about the list primitives -/

lemma mem_stableInsert {le : α → α → Bool} {x a : α} {l : List α} :
    a ∈ stableInsert le x l ↔ a = x ∨ a ∈ l := by
  induction l with
  | nil => simp [stableInsert]
  | cons y ys ih =>
    simp only [stableInsert]
    split
    · simp
    · simp [ih]
      tauto

lemma mem_stableSort {le : α → α → Bool} {a : α} {l : List α} :
    a ∈ stableSort le l ↔ a ∈ l := by
  induction l with
  | nil => simp [stableSort]
  | cons x xs ih => simp [stableSort, mem_stableInsert, ih]

lemma alget_append (l₁ l₂ : List (String × α)) (k : String) :
    alget (l₁ ++ l₂) k =
      match alget l₁ k with
      | some v => some v
      | none => alget l₂ k := by
  induction l₁ with
  | nil => simp [alget]
  | cons e t ih =>
    simp only [List.cons_append, alget]
    split <;> simp [ih]

lemma alget_eq_none_of_keys {l : List (String × α)} {k : String}
    (h : ∀ e ∈ l, e.1 ≠ k) : alget l k = none := by
  induction l with
  | nil => rfl
  | cons e t ih =>
    simp only [alget]
    rw [if_neg (h e (by simp))]
    exact ih fun x hx => h x (by simp [hx])

lemma mem_keys_of_alget {l : List (String × α)} {k : String} {v : α}
    (h : alget l k = some v) : k ∈ l.map Prod.fst := by
  induction l with
  | nil => simp [alget] at h
  | cons e t ih =>
    simp only [alget] at h
    by_cases he : e.1 = k
    · simp [he]
    · rw [if_neg he] at h
      simpa using Or.inr (ih h)

lemma eraseP_eq_self_of_not_mem {l : List (String × α)} {k : String}
    (h : k ∉ l.map Prod.fst) : l.eraseP (fun e => e.1 == k) = l := by
  refine List.eraseP_of_forall_not fun e he hek => ?_
  exact h (List.mem_map.mpr ⟨e, he, beq_iff_eq.mp hek⟩)

/-- Two members of consecutive list segments occur at strictly increasing
positions in the concatenation. -/
lemma mem_append_indices {a b : α} {l₁ l₂ : List α}
    (ha : a ∈ l₁) (hb : b ∈ l₂) :
    ∃ i j : Nat, i < j ∧ (l₁ ++ l₂)[i]? = some a ∧ (l₁ ++ l₂)[j]? = some b := by
  obtain ⟨i, hi, hgi⟩ := List.mem_iff_getElem.mp ha
  obtain ⟨j, hj, hgj⟩ := List.mem_iff_getElem.mp hb
  refine ⟨i, l₁.length + j, by omega, ?_, ?_⟩
  · rw [List.getElem?_append_left hi, List.getElem?_eq_getElem hi, hgi]
  · rw [List.getElem?_append_right (by omega)]
    simp only [Nat.add_sub_cancel_left]
    rw [List.getElem?_eq_getElem hj, hgj]

/-! ## Lemmas about the per-document functions -/

lemma docEntry_key {today : String} {d : DocInput} :
    ∀ e ∈ docEntry today d, e.1 = d.relPath := by
  intro e he
  unfold docEntry at he
  rcases hb : docBranch today d <;> rw [hb] at he <;> simp at he <;>
    simp [he]

/-- Every entry the loop writes has the document's fingerprint under
`hash` and some link under `link`. -/
lemma docEntry_hash_link {today : String} {d : DocInput} {p : String}
    {e : OldEntry} (h : (p, e) ∈ docEntry today d) :
    e.hash = some d.contentHash ∧ e.link.isSome := by
  unfold docEntry at h
  rcases hb : docBranch today d <;> rw [hb] at h <;> simp at h
  · obtain ⟨-, he⟩ := h
    subst he
    exact ⟨rfl, rfl⟩
  · obtain ⟨-, he⟩ := h
    subst he
    exact ⟨rfl, rfl⟩
  · obtain ⟨-, he⟩ := h
    subst he
    simp [NewEntryData.toOldEntry, docND]

lemma docParsed_normal {today : String} {d : DocInput}
    (h : docBranch today d = .normal) :
    docParsed today d = [docPost today d] := by
  simp [docParsed, h]

lemma docParsed_not_normal {today : String} {d : DocInput}
    (h : docBranch today d ≠ .normal) : docParsed today d = [] := by
  unfold docParsed
  rcases hb : docBranch today d <;> simp_all

lemma needs_full_build_empty (ch : String) :
    needs_full_build ch OldEntry.empty = true := by
  simp [needs_full_build, OldEntry.empty]

lemma needs_full_build_false_of {ch : String} {e : OldEntry}
    (h1 : e.hash = some ch) (h2 : e.link.isSome) :
    needs_full_build ch e = false := by
  obtain ⟨l, hl⟩ := Option.isSome_iff_exists.mp h2
  simp [needs_full_build, h1, hl]

lemma metadata_changed_self (n : NewEntryData) :
    metadata_changed n n.toOldEntry = false := by
  simp [metadata_changed, NewEntryData.toOldEntry]

/-! ## Lemmas about the run-level aggregation -/

lemma keys_newPostsLoop {I : RunInput} :
    ∀ k ∈ (newPostsLoopOf I).map Prod.fst, k ∈ sourcePathsOf I := by
  intro k hk
  obtain ⟨e, he, hek⟩ := List.mem_map.mp hk
  obtain ⟨d, hd, hde⟩ := List.mem_flatMap.mp he
  subst hek
  exact List.mem_map.mpr ⟨d, hd, (docEntry_key e hde).symm⟩

lemma applyDeletions_eq_self {oldPosts : List (String × OldEntry)}
    {deleted : List String} {posts : List (String × OldEntry)}
    (h : ∀ p ∈ deleted, p ∉ posts.map Prod.fst) :
    applyDeletions oldPosts deleted posts = posts := by
  induction deleted with
  | nil => rfl
  | cons p rest ih =>
    unfold applyDeletions
    simp only [List.foldl_cons]
    have hstep :
        (match delCondLink ((alget oldPosts p).getD OldEntry.empty).link with
          | some _ => posts.eraseP (fun e => e.1 == p)
          | none => posts) = posts := by
      split
      · exact eraseP_eq_self_of_not_mem (h p (by simp))
      · rfl
    rw [hstep]
    exact ih fun q hq => h q (by simp [hq])

/-- The deleted-path pops never find their key in the freshly built
`posts` bucket, so they do not change it. -/
lemma newPostsOf_eq_loop (I : RunInput) :
    newPostsOf I = newPostsLoopOf I := by
  unfold newPostsOf
  refine applyDeletions_eq_self fun p hp hmem => ?_
  have hsrc := keys_newPostsLoop p hmem
  have : ¬(sourcePathsOf I).contains p := by
    have := (List.mem_filter.mp hp).2
    simpa using this
  exact this (List.elem_iff.mpr hsrc)

/-- Keys of the saved `posts` bucket all come from discovered documents. -/
lemma saved_keys_subset {I : RunInput} :
    ∀ k ∈ (build_site I).manifest.posts.map Prod.fst, k ∈ sourcePathsOf I := by
  intro k hk
  rw [show (build_site I).manifest.posts = newPostsOf I from rfl,
    newPostsOf_eq_loop] at hk
  exact keys_newPostsLoop k hk

/-! ## Second-run lemmas (towards idempotence) -/

/-- With pairwise distinct document paths, looking a document's path up
in the freshly built `posts` bucket yields exactly that document's own
entry (or nothing, for an excluded document). -/
lemma alget_newPostsLoop {today : String} {docs : List DocInput}
    (hnd : (docs.map DocInput.relPath).Nodup) {d : DocInput} (hd : d ∈ docs) :
    alget (docs.flatMap (docEntry today)) d.relPath =
      (docEntry today d).head?.map Prod.snd := by
  induction docs with
  | nil => simp at hd
  | cons d0 rest ih =>
    simp only [List.map_cons, List.nodup_cons] at hnd
    rcases List.mem_cons.mp hd with hd0 | hdr
    · subst hd0
      simp only [List.flatMap_cons, alget_append]
      rcases h : docEntry today d with _ | ⟨⟨p, e⟩, t⟩
      · simp only [alget, List.head?_nil, Option.map_none]
        refine alget_eq_none_of_keys fun e' he' => ?_
        obtain ⟨d', hd', hde⟩ := List.mem_flatMap.mp he'
        rw [docEntry_key e' hde]
        intro hcontra
        exact hnd.1 (List.mem_map.mpr ⟨d', hd', hcontra⟩)
      · have hp : p = d.relPath := docEntry_key (p, e) (by rw [h]; simp)
        simp [alget, hp]
    · have hne : d0.relPath ≠ d.relPath := by
        intro hcontra
        exact hnd.1 (List.mem_map.mpr ⟨d, hdr, hcontra.symm⟩)
      simp only [List.flatMap_cons, alget_append]
      have h0 : alget (docEntry today d0) d.relPath = none := by
        refine alget_eq_none_of_keys fun e he => ?_
        rw [docEntry_key e he]
        exact hne
      rw [h0]
      exact ih hnd.2 hdr

/-- The input of the second of two back-to-back runs with no source or
theme change: same documents, same theme, old manifest = the manifest the
first run saved. -/
def secondRun (I : RunInput) : RunInput :=
  { I with oldManifest := some (build_site I).manifest }

lemma oldPosts_secondRun (I : RunInput) :
    oldPostsOf (secondRun I) = newPostsLoopOf I := by
  show (build_site I).manifest.posts = newPostsLoopOf I
  exact newPostsOf_eq_loop I

/-- The saved manifest does not depend on the old one: every entry value
is computed from the current documents and theme hashes alone, and the
deleted-path pops are no-ops. -/
lemma manifest_independent (I : RunInput) (o : Option Manifest) :
    (build_site { I with oldManifest := o }).manifest = (build_site I).manifest := by
  show Manifest.mk _ _ _ = Manifest.mk _ _ _
  rw [newPostsOf_eq_loop, newPostsOf_eq_loop]
  rfl

lemma cssChanged_secondRun (I : RunInput) :
    cssChangedOf (secondRun I) = false := by
  unfold cssChangedOf
  have hth : (secondRun I).theme = I.theme := rfl
  rw [hth]
  have hold : oldStaticOf (secondRun I) = cssEntriesOf I := rfl
  rw [hold]
  rcases h : I.theme.cssHash with _ | hsh
  · rfl
  · simp [cssEntriesOf, h, alget]

/-- The base template is not among the core dependency paths. -/
lemma base_not_core : ∀ p ∈ CORE_DEPENDENCIES, p ≠ baseTemplateSource := by
  decide

lemma alget_baseEntries_core {I : RunInput} {p : String}
    (hp : p ∈ CORE_DEPENDENCIES) : alget (baseEntriesOf I) p = none := by
  unfold baseEntriesOf
  rcases I.theme.baseHash with _ | h
  · rfl
  · have hne : baseTemplateSource ≠ p := fun hc => (base_not_core p hp) hc.symm
    simp [alget, hne]

/-- Key lookup in the `templates` entries produced from a key-distinct
pair list returns each existing file's stored hash. -/
lemma alget_pairEntries {pairs : List (String × Option String)}
    (hnd : (pairs.map Prod.fst).Nodup) {pr : String × Option String}
    (hp : pr ∈ pairs) {h : String} (hh : pr.2 = some h) :
    alget (pairs.flatMap fun q =>
      match q.2 with
      | some v => [(q.1, v)]
      | none => []) pr.1 = some h := by
  induction pairs with
  | nil => simp at hp
  | cons q rest ih =>
    simp only [List.map_cons, List.nodup_cons] at hnd
    rcases List.mem_cons.mp hp with hq | hr
    · subst hq
      simp only [List.flatMap_cons, hh, alget_append]
      simp [alget]
    · have hne : q.1 ≠ pr.1 := by
        intro hcontra
        exact hnd.1 (List.mem_map.mpr ⟨pr, hr, hcontra.symm⟩)
      simp only [List.flatMap_cons, alget_append]
      have h0 : alget (match q.2 with
          | some v => [(q.1, v)]
          | none => []) pr.1 = none := by
        rcases q.2 with _ | v
        · rfl
        · simp [alget, hne]
      rw [h0]
      exact ih hnd.2 hr

lemma zip_keys_sublist : ∀ (l₁ : List α) (l₂ : List β),
    List.Sublist ((l₁.zip l₂).map Prod.fst) l₁
  | [], _ => by simp
  | _ :: _, [] => by simp
  | a :: l₁, b :: l₂ => by
    simpa using List.Sublist.cons₂ a (zip_keys_sublist l₁ l₂)

lemma corePairs_keys_nodup (I : RunInput) :
    ((corePairsOf I).map Prod.fst).Nodup :=
  List.Nodup.sublist (zip_keys_sublist CORE_DEPENDENCIES I.theme.coreHashes)
    (by decide)

/-- Unfolding of the run's effect trace (note `++` associates left). -/
lemma trace_def (I : RunInput) :
    (build_site I).trace =
      ((loopActionsOf I ++ delActionsOf I) ++
        (postsToBuildAllOf I).map (fun p => Action.generatePostPage p.link)) ++
        (if aggregateOf I then [Action.generateAggregates] else []) := rfl

/-! ## The claims -/

/-- **C1.** The classifier of autobuild.py:315-321 computes
`needs_full_build` as true exactly when the current content hash differs
from the stored one, or the old entry is absent (the lookup defaults to
the empty dict, whose `hash` is absent and hence differs from every
current hash), or the old entry has no `link` field; and whenever the
stored hash differs from the current one — in particular for every
document whose bytes changed, since SHA-256 fingerprints of changed
bytes differ — `needs_full_build` is true regardless of the remaining
metadata fields. -/
theorem c1_needs_full_regen :
    (∀ (ch : String) (o : Option OldEntry),
      needs_full_build ch (o.getD OldEntry.empty) = specNeedsFullRegen ch o) ∧
    (∀ (ch : String) (e : OldEntry),
      e.hash ≠ some ch → needs_full_build ch e = true) := by
  constructor
  · intro ch o
    rcases o with _ | e
    · simp [needs_full_build, specNeedsFullRegen, OldEntry.empty]
    · rfl
  · intro ch e h
    simp [needs_full_build, h]

/-- Witness for C1 at a concrete entry whose stored hash differs. -/
theorem c1_needs_full_regen_witness :
    needs_full_build "h1" (hashLinkEntry "h0" "posts/a.html") = true :=
  c1_needs_full_regen.2 "h1" (hashLinkEntry "h0" "posts/a.html") (by decide)

/-- **C5.** `load_manifest` returns the empty manifest on a missing file
and on malformed JSON (`none` denotes Python's `{}`, on which every
bucket lookup the driver performs is empty — observationally the spec's
`{posts:{}, staticFiles:{}, templates:{}}`), and a run from that state
fully regenerates: every document classifies as `needs_full_build`,
every parsed post is in the HTML-rebuild set, and the aggregate block
runs. -/
theorem c5_empty_manifest_full_rebuild :
    (load_manifest .missing = none ∧ load_manifest .malformed = none) ∧
    (∀ I : RunInput, I.oldManifest = none →
      (∀ d ∈ I.docs,
        needs_full_build d.contentHash (docOldItem (oldPostsOf I) d) = true) ∧
      (∀ p ∈ (build_site I).parsedPosts, p ∈ (build_site I).postsToBuildAll) ∧
      (build_site I).aggregateRebuilt = true) := by
  refine ⟨⟨rfl, rfl⟩, fun I hI => ?_⟩
  have hop : oldPostsOf I = [] := by simp [oldPostsOf, hI]
  have hitem : ∀ d : DocInput, docOldItem (oldPostsOf I) d = OldEntry.empty := by
    intro d
    simp [docOldItem, hop, alget]
  refine ⟨fun d _ => by rw [hitem d]; exact needs_full_build_empty _, ?_, ?_⟩
  · intro p hp
    show p ∈ postsToBuildAllOf I
    unfold postsToBuildAllOf
    split
    · exact mem_stableSort.mpr hp
    · obtain ⟨d, hd, hpd⟩ := List.mem_flatMap.mp hp
      refine List.mem_flatMap.mpr ⟨d, hd, ?_⟩
      unfold docToBuild
      unfold docParsed at hpd
      rcases hb : docBranch I.today d <;> rw [hb] at hpd <;> simp at hpd
      rw [hitem d, needs_full_build_empty]
      simp [hpd]
  · show aggregateOf I = true
    simp [aggregateOf, hI]

/-- Witness for C5: the first run over `firstRunInput` (no manifest on
disk) rebuilds both documents and the aggregates. -/
theorem c5_empty_manifest_full_rebuild_witness :
    (∀ d ∈ firstRunInput.docs,
      needs_full_build d.contentHash
        (docOldItem (oldPostsOf firstRunInput) d) = true) ∧
    (∀ p ∈ (build_site firstRunInput).parsedPosts,
      p ∈ (build_site firstRunInput).postsToBuildAll) ∧
    (build_site firstRunInput).aggregateRebuilt = true :=
  c5_empty_manifest_full_rebuild.2 firstRunInput rfl

/-- **C8.** A document whose normalised metadata lacks the `date` or the
`title` key (after `get_metadata_and_content` ran — which only happens
for a file it could not read, since normalisation substitutes defaults
for both) is silently excluded unless it matches the special-404 test:
it takes the `excluded` branch, contributes no manifest entry, no parsed
post, no rebuild-set member, no filesystem action and no aggregate-flag
change, and the run continues.  The only other branch reachable under
the hypothesis is the 404 singleton page; the hidden branch (which the
configured about page uses) requires a readable file and is therefore
never taken for a field-deficient document. -/
theorem c8_missing_fields_excluded :
    ∀ (today : String) (d : DocInput),
    (normalizeMeta today d).date.isNone ∨ (normalizeMeta today d).title.isNone →
    docBranch today d = .special404 ∨
      (docBranch today d = .excluded ∧ docEntry today d = [] ∧
        docParsed today d = [] ∧
        ∀ (tc : Bool) (oldPosts : List (String × OldEntry)),
          docToBuild tc oldPosts today d = [] ∧
          docActions tc oldPosts today d = [] ∧
          docPdc oldPosts today d = false) := by
  intro today d h
  have hro : d.readOk = false := by
    by_contra hok
    rw [Bool.not_eq_false] at hok
    have : normalizeMeta today d =
        { date := some (d.raw.date.getD today)
          title := some (d.raw.title.getD (defaultTitle
            (d.raw.slug.getD (slugFromFilename d.fileName)) d.contentMarkdown))
          slug := some (d.raw.slug.getD (slugFromFilename d.fileName))
          tags := d.raw.tags.filter (· ≠ "")
          hidden := d.raw.hidden
          status := d.raw.status } := by
      simp [normalizeMeta, hok]
    rw [this] at h
    simp at h
  have hmeta : normalizeMeta today d = Metadata.empty := by
    simp [normalizeMeta, hro]
  by_cases h404 : (docSlug today d = "404" || d.fileName = "404.md") = true
  · left
    simp [docBranch, h404]
  · right
    have hbranch : docBranch today d = .excluded := by
      simp only [docBranch, hmeta]
      rw [if_neg (by simpa using h404)]
      simp [Metadata.empty]
    refine ⟨hbranch, ?_, ?_, fun tc oldPosts => ⟨?_, ?_, ?_⟩⟩
    · simp [docEntry, hbranch]
    · simp [docParsed, hbranch]
    · simp [docToBuild, hbranch]
    · simp [docActions, hbranch]
    · simp [docPdc, hbranch]

/-- Witness for C8 at a concrete unreadable document. -/
theorem c8_missing_fields_excluded_witness :
    docBranch "2026-01-01" docBad = .special404 ∨
      (docBranch "2026-01-01" docBad = .excluded ∧
        docEntry "2026-01-01" docBad = [] ∧
        docParsed "2026-01-01" docBad = [] ∧
        ∀ (tc : Bool) (oldPosts : List (String × OldEntry)),
          docToBuild tc oldPosts "2026-01-01" docBad = [] ∧
          docActions tc oldPosts "2026-01-01" docBad = [] ∧
          docPdc oldPosts "2026-01-01" docBad = false) :=
  c8_missing_fields_excluded "2026-01-01" docBad (by decide)

/-- **C10.** `generate_post_page` (generator.py:150-161) returns before
creating a directory or writing a file whenever the post's `link` field
is absent, empty, or equal to `404.html` after lower-casing; and any
invocation that does produce filesystem effects was given a present,
non-empty link whose lower-casing is not `404.html`. -/
theorem c10_post_page_guard :
    ∀ link : Option String,
    ((link = none ∨ link = some "" ∨
        (∃ l, link = some l ∧ pyLower l = "404.html")) →
      generate_post_page link = []) ∧
    (generate_post_page link ≠ [] →
      ∃ l, link = some l ∧ l ≠ "" ∧ pyLower l ≠ "404.html") := by
  intro link
  constructor
  · rintro (h | h | ⟨l, hl, h404⟩)
    · simp [h, generate_post_page]
    · simp [h, generate_post_page]
    · simp [hl, generate_post_page, h404]
  · intro hne
    rcases link with _ | l
    · simp [generate_post_page] at hne
    · refine ⟨l, rfl, ?_, ?_⟩
      · intro hcontra
        exact hne (by simp [generate_post_page, hcontra])
      · intro hcontra
        exact hne (by simp [generate_post_page, hcontra])

/-- Witness for C10: a mixed-case `404.Html` link produces no effects. -/
theorem c10_post_page_guard_witness :
    generate_post_page (some "404.Html") = [] :=
  (c10_post_page_guard (some "404.Html")).1
    (Or.inr (Or.inr ⟨"404.Html", rfl, by decide⟩))

/-- **C2.** If any member of the theme dependency set — the stylesheet,
the base template, or any existing core logic/template file — hashes
differently from the old manifest's stored value (including a missing
stored value), then `theme_changed` holds for the whole run and the
HTML-rebuild set is widened to all surviving documents: every parsed
post is a member of the set actually rendered, and its page-generation
action is in the run's trace, even when its content hash is unchanged. -/
theorem c2_theme_change_widens :
    ∀ I : RunInput,
    ((∃ h, I.theme.cssHash = some h ∧
        alget (oldStaticOf I) cssSource ≠ some h) ∨
     (∃ h, I.theme.baseHash = some h ∧
        alget (oldTemplatesOf I) baseTemplateSource ≠ some h) ∨
     (∃ pr ∈ corePairsOf I, ∃ h, pr.2 = some h ∧
        alget (oldTemplatesOf I) pr.1 ≠ some h)) →
    (build_site I).themeChanged = true ∧
    ∀ p ∈ (build_site I).parsedPosts,
      p ∈ (build_site I).postsToBuildAll ∧
      Action.generatePostPage p.link ∈ (build_site I).trace := by
  intro I hch
  have htc : themeChangedOf I = true := by
    unfold themeChangedOf
    rcases hch with ⟨h, hcss, hne⟩ | ⟨h, hbase, hne⟩ | ⟨pr, hpr, h, hh, hne⟩
    · have : cssChangedOf I = true := by
        unfold cssChangedOf
        rw [hcss]
        simpa using hne
      simp [this]
    · have : baseChangedOf I = true := by
        unfold baseChangedOf
        rw [hbase]
        simpa using hne
      simp [this]
    · have : coreChangedOf I = true := by
        unfold coreChangedOf
        refine List.any_eq_true.mpr ⟨pr, hpr, ?_⟩
        rw [hh]
        simpa using hne
      simp [this]
  refine ⟨htc, fun p hp => ?_⟩
  have hmem : p ∈ postsToBuildAllOf I := by
    unfold postsToBuildAllOf
    rw [htc]
    exact mem_stableSort.mpr hp
  refine ⟨hmem, ?_⟩
  rw [trace_def]
  refine List.mem_append.mpr (Or.inl (List.mem_append.mpr (Or.inr ?_)))
  exact List.mem_map.mpr ⟨p, hmem, rfl⟩

/-- Witness for C2: a changed stylesheet hash rebuilds the unchanged
`markdown/a.md`. -/
theorem c2_theme_change_widens_witness :
    (build_site cssChangedInput).themeChanged = true ∧
    Action.generatePostPage (docPost cssChangedInput.today docA).link ∈
      (build_site cssChangedInput).trace :=
  ⟨(c2_theme_change_widens cssChangedInput
      (Or.inl ⟨"c1", rfl, by decide⟩)).1,
   ((c2_theme_change_widens cssChangedInput
      (Or.inl ⟨"c1", rfl, by decide⟩)).2
      (docPost cssChangedInput.today docA) (by decide)).2⟩

/-- **C9.** Invariant on the persisted state: every key of the `posts`
bucket of the manifest saved at the end of a run is the relative path of
a document discovered during that run — the bucket is rebuilt from empty
and only discovered documents append entries, and the deleted-path pops
only ever remove keys.  No entry for a deleted or undiscovered document
survives into the saved manifest. -/
theorem c9_saved_posts_keys_subset :
    ∀ (I : RunInput) (k : String),
    k ∈ (build_site I).manifest.posts.map Prod.fst →
    k ∈ I.docs.map DocInput.relPath :=
  fun _ k hk => saved_keys_subset k hk

/-- Witness for C9 on a concrete two-document run. -/
theorem c9_saved_posts_keys_subset_witness :
    "markdown/a.md" ∈ addDocInput.docs.map DocInput.relPath :=
  c9_saved_posts_keys_subset addDocInput "markdown/a.md" (by decide)

/-- **C3** (evaluation at the failing input): on a non-first build whose
old manifest holds exactly the unchanged `markdown/a.md`, discovering
the new document `markdown/b.md` with an unchanged theme leaves
`posts_data_changed` false and skips the aggregate block — the newly
added post triggers `needs_full_build`, which suppresses both
`posts_data_changed` assignments (autobuild.py:423-429), so the home
page, archive, tag, sitemap, RSS and robots outputs are not regenerated
and the new post never appears in them. -/
theorem c3_added_document_no_aggregate :
    ("markdown/b.md" ∈ addDocInput.docs.map DocInput.relPath) ∧
    alget (oldPostsOf addDocInput) "markdown/b.md" = none ∧
    addDocInput.oldManifest.isSome = true ∧
    (build_site addDocInput).themeChanged = false ∧
    (build_site addDocInput).postsDataChanged = false ∧
    (build_site addDocInput).aggregateRebuilt = false := by
  decide

/-- **C6** (counterexample to the claim as stated): an old manifest
entry for a deleted source records the empty string as its output link.
The empty string is not one of the two sentinels, so the claim demands a
filesystem removal, but the run performs none — its whole trace is the
aggregate block (the truthiness guard `if deleted_link and ...` at
autobuild.py:469 also skips falsy links, deliberately: stripping and
splitting `""` would resolve to the build root itself). -/
theorem c6_counterexample :
    oldPostsOf emptyLinkDeleteInput =
      [("markdown/gone.md", hashLinkEntry "h" "")] ∧
    deletedPathsOf emptyLinkDeleteInput = ["markdown/gone.md"] ∧
    (hashLinkEntry "h" "").link = some "" ∧
    ("" ≠ "hidden" ∧ ("" : String) ≠ "404.html") ∧
    (build_site emptyLinkDeleteInput).trace = [Action.generateAggregates] := by
  decide

/-- **C6 as amended.** For every path in the old manifest's posts bucket
that is absent from the discovered source set: if its recorded output
link is present, non-empty and not a sentinel, the output location is
removed and the path is absent from the saved manifest; for sentinel
(or absent or empty) links no filesystem removal is attempted; and in
every case the aggregate-rebuild flag is set. -/
theorem c6_amended_delete_cleanup :
    (∀ (I : RunInput) (p : String) (e : OldEntry) (l : String),
      alget (oldPostsOf I) p = some e →
      p ∉ I.docs.map DocInput.relPath →
      e.link = some l → l ≠ "" → l ≠ "hidden" → l ≠ "404.html" →
      Action.removeOutput l ∈ (build_site I).trace ∧
      p ∉ (build_site I).manifest.posts.map Prod.fst ∧
      (build_site I).postsDataChanged = true) ∧
    (∀ (I : RunInput) (p : String) (e : OldEntry),
      alget (oldPostsOf I) p = some e →
      p ∉ I.docs.map DocInput.relPath →
      (e.link = none ∨ e.link = some "" ∨ e.link = some "hidden" ∨
        e.link = some "404.html") →
      docDeletionActions (oldPostsOf I) p = [] ∧
      (build_site I).postsDataChanged = true) := by
  have hdelmem : ∀ (I : RunInput) (p : String) (e : OldEntry),
      alget (oldPostsOf I) p = some e →
      p ∉ I.docs.map DocInput.relPath → p ∈ deletedPathsOf I := by
    intro I p e h1 h2
    refine List.mem_filter.mpr ⟨mem_keys_of_alget h1, ?_⟩
    have hmem : p ∉ sourcePathsOf I := h2
    simp [hmem]
  have hpdc : ∀ (I : RunInput) (p : String),
      p ∈ deletedPathsOf I → (build_site I).postsDataChanged = true := by
    intro I p hp
    show pdcOf I = true
    unfold pdcOf
    have hne : deletedPathsOf I ≠ [] := List.ne_nil_of_mem hp
    have : (deletedPathsOf I).isEmpty = false := by
      rcases h : (deletedPathsOf I).isEmpty
      · rfl
      · exact absurd (List.isEmpty_iff.mp h) hne
    simp [this]
  constructor
  · intro I p e l h1 h2 hl hne hs1 hs2
    have hdel := hdelmem I p e h1 h2
    have hact : docDeletionActions (oldPostsOf I) p = [Action.removeOutput l] := by
      unfold docDeletionActions
      rw [h1]
      simp [delCondLink, hl, hne, hs1, hs2]
    refine ⟨?_, ?_, hpdc I p hdel⟩
    · rw [trace_def]
      refine List.mem_append.mpr (Or.inl (List.mem_append.mpr (Or.inl
        (List.mem_append.mpr (Or.inr ?_)))))
      exact List.mem_flatMap.mpr ⟨p, hdel, by rw [hact]; simp⟩
    · intro hk
      exact h2 (saved_keys_subset p hk)
  · intro I p e h1 h2 hl
    have hdel := hdelmem I p e h1 h2
    refine ⟨?_, hpdc I p hdel⟩
    unfold docDeletionActions
    rw [h1]
    rcases hl with h | h | h | h <;> simp [delCondLink, h]

/-- Witness for amended C6: deleting a post recorded at
`posts/gone.html` removes that location, drops the entry and sets the
flag. -/
theorem c6_amended_delete_cleanup_witness :
    Action.removeOutput "posts/gone.html" ∈
      (build_site realLinkDeleteInput).trace ∧
    "markdown/gone.md" ∉
      (build_site realLinkDeleteInput).manifest.posts.map Prod.fst ∧
    (build_site realLinkDeleteInput).postsDataChanged = true :=
  c6_amended_delete_cleanup.1 realLinkDeleteInput "markdown/gone.md"
    (hashLinkEntry "h" "posts/gone.html") "posts/gone.html"
    (by decide) (by decide) rfl (by decide) (by decide) (by decide)

/-- **C7** (counterexample to the claim as stated): a surviving document
whose old manifest entry records the empty string as its link.  The new
link `posts/x.html` differs and `""` is not a sentinel, so the claim
demands that the old location be deleted, but the truthiness guard
`old_item.get('link') and ...` (autobuild.py:432) skips falsy links:
the trace holds only the new page write, no removal. -/
theorem c7_counterexample :
    docBranch emptyLinkRenameInput.today docX = .normal ∧
    (docOldItem (oldPostsOf emptyLinkRenameInput) docX).link = some "" ∧
    "" ≠ docLink emptyLinkRenameInput.today docX ∧
    ("" ≠ "hidden" ∧ ("" : String) ≠ "404.html") ∧
    (build_site emptyLinkRenameInput).trace =
      [Action.generatePostPage "posts/x.html"] := by
  decide

/-- **C7 as amended.** For every surviving document whose newly computed
output link differs from the link recorded in its old manifest entry:
when that old link is present, non-empty and not a sentinel, the old
output location's removal is emitted during the document loop — and
whenever the document's page is rebuilt in this run, the removal occurs
strictly before the new output is written.  For a sentinel, absent or
empty old link the cleanup is skipped: the document loop emits no action
at all for that document (in the normal branch the cleanup is the only
possible loop effect, autobuild.py:431-447). -/
theorem c7_amended_rename_cleanup :
    (∀ (I : RunInput) (d : DocInput) (e : OldEntry) (l : String),
      d ∈ I.docs →
      docBranch I.today d = .normal →
      alget (oldPostsOf I) d.relPath = some e →
      e.link = some l → l ≠ "" → l ≠ docLink I.today d →
      l ≠ "hidden" → l ≠ "404.html" →
      Action.removeOutput l ∈ (build_site I).trace ∧
      (docPost I.today d ∈ (build_site I).postsToBuildAll →
        ∃ i j : Nat, i < j ∧
          (build_site I).trace[i]? = some (Action.removeOutput l) ∧
          (build_site I).trace[j]? =
            some (Action.generatePostPage (docLink I.today d)))) ∧
    (∀ (I : RunInput) (d : DocInput) (e : OldEntry),
      docBranch I.today d = .normal →
      alget (oldPostsOf I) d.relPath = some e →
      (e.link = none ∨ e.link = some "" ∨ e.link = some "hidden" ∨
        e.link = some "404.html") →
      docActions (themeChangedOf I) (oldPostsOf I) I.today d = []) := by
  constructor
  · intro I d e l hd hb h1 hl hne hrename hs1 hs2
    have hitem : docOldItem (oldPostsOf I) d = e := by
      simp [docOldItem, h1]
    have hact : docActions (themeChangedOf I) (oldPostsOf I) I.today d =
        [Action.removeOutput l] := by
      unfold docActions
      rw [hb, hitem, hl]
      simp [hne, hrename, hs1, hs2]
    have hmemloop : Action.removeOutput l ∈ loopActionsOf I :=
      List.mem_flatMap.mpr ⟨d, hd, by rw [hact]; simp⟩
    constructor
    · rw [trace_def]
      exact List.mem_append.mpr (Or.inl (List.mem_append.mpr (Or.inl
        (List.mem_append.mpr (Or.inl hmemloop)))))
    · intro hpb
      have hwrite : Action.generatePostPage (docLink I.today d) ∈
          (postsToBuildAllOf I).map (fun q => Action.generatePostPage q.link) :=
        List.mem_map.mpr ⟨docPost I.today d, hpb, rfl⟩
      have hr : Action.removeOutput l ∈ loopActionsOf I ++ delActionsOf I :=
        List.mem_append.mpr (Or.inl hmemloop)
      have hw : Action.generatePostPage (docLink I.today d) ∈
          (postsToBuildAllOf I).map (fun q => Action.generatePostPage q.link) ++
            (if aggregateOf I then [Action.generateAggregates] else []) :=
        List.mem_append.mpr (Or.inl hwrite)
      have hidx := mem_append_indices hr hw
      rw [trace_def, List.append_assoc]
      exact hidx
  · intro I d e hb h1 hl
    have hitem : docOldItem (oldPostsOf I) d = e := by
      simp [docOldItem, h1]
    unfold docActions
    rw [hb, hitem]
    rcases hl with h | h | h | h <;> rw [h] <;> simp

/-- Witness for amended C7: the rename cleanup of `posts/old.html` is
emitted in a concrete run, and the empty-link document of the
counterexample input contributes no cleanup action. -/
theorem c7_amended_rename_cleanup_witness :
    Action.removeOutput "posts/old.html" ∈ (build_site realRenameInput).trace ∧
    docActions (themeChangedOf emptyLinkRenameInput)
      (oldPostsOf emptyLinkRenameInput) emptyLinkRenameInput.today docX = [] :=
  ⟨(c7_amended_rename_cleanup.1 realRenameInput docX
      (hashLinkEntry "h" "posts/old.html") "posts/old.html"
      (by decide) (by decide) (by decide) rfl
      (by decide) (by decide) (by decide) (by decide)).1,
   c7_amended_rename_cleanup.2 emptyLinkRenameInput docX
      (hashLinkEntry "h" "") (by decide) (by decide)
      (Or.inr (Or.inl rfl))⟩

/-! ## C4: idempotence of back-to-back runs -/

lemma baseChanged_secondRun (I : RunInput) :
    baseChangedOf (secondRun I) = false := by
  unfold baseChangedOf
  have hth : (secondRun I).theme = I.theme := rfl
  rw [hth]
  have hold : oldTemplatesOf (secondRun I) = baseEntriesOf I ++ coreEntriesOf I := rfl
  rw [hold]
  rcases h : I.theme.baseHash with _ | hsh
  · rfl
  · simp [baseEntriesOf, h, alget_append, alget]

lemma coreChanged_secondRun (I : RunInput) :
    coreChangedOf (secondRun I) = false := by
  unfold coreChangedOf
  have hcp : corePairsOf (secondRun I) = corePairsOf I := rfl
  have hold : oldTemplatesOf (secondRun I) = baseEntriesOf I ++ coreEntriesOf I := rfl
  rw [hcp]
  refine List.any_eq_false.mpr fun pr hpr => ?_
  rcases h : pr.2 with _ | hsh
  · simp
  · rw [hold]
    have hmemcore : pr.1 ∈ CORE_DEPENDENCIES :=
      (List.of_mem_zip hpr).1
    have hbase : alget (baseEntriesOf I) pr.1 = none :=
      alget_baseEntries_core hmemcore
    have hcore : alget (coreEntriesOf I) pr.1 = some hsh :=
      alget_pairEntries (corePairs_keys_nodup I) hpr h
    rw [alget_append, hbase, hcore]
    simp

lemma themeChanged_secondRun (I : RunInput) :
    themeChangedOf (secondRun I) = false := by
  unfold themeChangedOf
  rw [cssChanged_secondRun, baseChanged_secondRun, coreChanged_secondRun]
  rfl

/-- After a run, every surviving document looks itself up in the saved
manifest and finds its own stored entry unchanged, so the second run is
quiet for it: nothing to rebuild, no metadata change, no cleanup. -/
lemma secondRun_doc_quiet {I : RunInput}
    (hnd : (I.docs.map DocInput.relPath).Nodup) {d : DocInput}
    (hd : d ∈ I.docs) :
    docToBuild false (oldPostsOf (secondRun I)) I.today d = [] ∧
    docPdc (oldPostsOf (secondRun I)) I.today d = false ∧
    docActions false (oldPostsOf (secondRun I)) I.today d = [] := by
  have hget : alget (oldPostsOf (secondRun I)) d.relPath =
      (docEntry I.today d).head?.map Prod.snd := by
    rw [oldPosts_secondRun]
    exact alget_newPostsLoop hnd hd
  rcases hb : docBranch I.today d with _ | _ | _ | _
  · -- special404
    have hentry : docEntry I.today d =
        [(d.relPath, { OldEntry.empty with
          hash := some d.contentHash, link := some "404.html" })] := by
      simp [docEntry, hb]
    have hitem : docOldItem (oldPostsOf (secondRun I)) d =
        { OldEntry.empty with
          hash := some d.contentHash, link := some "404.html" } := by
      simp [docOldItem, hget, hentry]
    have hnfb : needs_full_build d.contentHash
        { OldEntry.empty with
          hash := some d.contentHash, link := some "404.html" } = false :=
      needs_full_build_false_of rfl rfl
    refine ⟨by simp [docToBuild, hb], by simp [docPdc, hb], ?_⟩
    simp [docActions, hb, hitem, hnfb]
  · -- hiddenPage
    have hentry : docEntry I.today d =
        [(d.relPath, { OldEntry.empty with
          hash := some d.contentHash, link := some "hidden" })] := by
      simp [docEntry, hb]
    have hitem : docOldItem (oldPostsOf (secondRun I)) d =
        { OldEntry.empty with
          hash := some d.contentHash, link := some "hidden" } := by
      simp [docOldItem, hget, hentry]
    have hnfb : needs_full_build d.contentHash
        { OldEntry.empty with
          hash := some d.contentHash, link := some "hidden" } = false :=
      needs_full_build_false_of rfl rfl
    refine ⟨by simp [docToBuild, hb], by simp [docPdc, hb], ?_⟩
    simp [docActions, hb, hitem, hnfb]
  · -- excluded
    exact ⟨by simp [docToBuild, hb], by simp [docPdc, hb],
      by simp [docActions, hb]⟩
  · -- normal
    have hentry : docEntry I.today d =
        [(d.relPath, (docND I.today d).toOldEntry)] := by
      simp [docEntry, hb]
    have hitem : docOldItem (oldPostsOf (secondRun I)) d =
        (docND I.today d).toOldEntry := by
      simp [docOldItem, hget, hentry]
    have hnfb : needs_full_build d.contentHash
        ((docND I.today d).toOldEntry) = false :=
      needs_full_build_false_of rfl rfl
    have hmc := metadata_changed_self (docND I.today d)
    refine ⟨?_, ?_, ?_⟩
    · simp [docToBuild, hb, hitem, hnfb]
    · simp [docPdc, hb, hitem, hnfb, hmc]
    · have hlink : ((docND I.today d).toOldEntry).link =
          some (docLink I.today d) := rfl
      simp [docActions, hb, hitem, hlink]

lemma deleted_secondRun {I : RunInput} :
    deletedPathsOf (secondRun I) = [] := by
  unfold deletedPathsOf
  refine List.filter_eq_nil_iff.mpr fun p hp => ?_
  have hp' : p ∈ (newPostsLoopOf I).map Prod.fst := by
    rw [← oldPosts_secondRun]
    exact hp
  have hsrc : p ∈ sourcePathsOf (secondRun I) := keys_newPostsLoop p hp'
  simp [hsrc]

/-- **C4.** Running the build twice with the same documents and theme
hashes (no source or theme change, same normalisation date) yields the
identical saved manifest — which, with insertion-ordered buckets written
deterministically by `json.dump`, is byte-identity of the manifest file —
and a second run that regenerates zero post pages and zero aggregate
pages: its HTML-rebuild set is empty, the aggregate gate is closed, and
its whole effect trace is empty.  Document paths are pairwise distinct,
as the directory scan guarantees. -/
theorem c4_second_run_idempotent :
    ∀ I : RunInput, (I.docs.map DocInput.relPath).Nodup →
    (build_site (secondRun I)).manifest = (build_site I).manifest ∧
    (build_site (secondRun I)).postsToBuildAll = [] ∧
    (build_site (secondRun I)).aggregateRebuilt = false ∧
    (build_site (secondRun I)).trace = [] := by
  intro I hnd
  have htc := themeChanged_secondRun I
  have htb : postsToBuildOf (secondRun I) = [] := by
    unfold postsToBuildOf
    refine List.flatMap_eq_nil_iff.mpr fun d hd => ?_
    have h := (secondRun_doc_quiet hnd (show d ∈ I.docs from hd)).1
    rw [show themeChangedOf (secondRun I) = false from htc]
    exact h
  have hall : postsToBuildAllOf (secondRun I) = [] := by
    unfold postsToBuildAllOf
    rw [htc]
    exact htb
  have hdel : deletedPathsOf (secondRun I) = [] := deleted_secondRun
  have hpdc : pdcOf (secondRun I) = false := by
    unfold pdcOf
    have h1 : pdcDocsOf (secondRun I) = false := by
      unfold pdcDocsOf
      exact List.any_eq_false.mpr fun d hd => by
        have h : docPdc (oldPostsOf (secondRun I)) (secondRun I).today d = false :=
          (secondRun_doc_quiet hnd (show d ∈ I.docs from hd)).2.1
        simp [h]
    rw [h1, hdel]
    rfl
  have hagg : aggregateOf (secondRun I) = false := by
    unfold aggregateOf
    rw [hpdc, htc]
    rfl
  refine ⟨manifest_independent I (some (build_site I).manifest), hall, hagg, ?_⟩
  rw [trace_def, hall, hagg]
  have hloop : loopActionsOf (secondRun I) = [] := by
    unfold loopActionsOf
    refine List.flatMap_eq_nil_iff.mpr fun d hd => ?_
    have h := (secondRun_doc_quiet hnd (show d ∈ I.docs from hd)).2.2
    rw [show themeChangedOf (secondRun I) = false from htc]
    exact h
  have hdelact : delActionsOf (secondRun I) = [] := by
    unfold delActionsOf
    rw [hdel]
    rfl
  rw [hloop, hdelact]
  rfl

/-- Witness for C4 on a concrete first build of two documents. -/
theorem c4_second_run_idempotent_witness :
    (build_site (secondRun firstRunInput)).manifest =
      (build_site firstRunInput).manifest ∧
    (build_site (secondRun firstRunInput)).postsToBuildAll = [] ∧
    (build_site (secondRun firstRunInput)).aggregateRebuilt = false ∧
    (build_site (secondRun firstRunInput)).trace = [] :=
  c4_second_run_idempotent firstRunInput (by decide)

end Autobuild
